import Mathlib

/-!
Verification of the map-listing scraper pipeline (scraper class in `src/index.js`,
filter configuration in `src/server.js`).

The JavaScript source is shallowly embedded: each pure fragment of the scraper
(the merge in `processChunk`, the pre-filter loop in `search`, `checkFilters`,
`checkOpenAtTime`, the rating extraction in `extractBasicList` and
`getDetailsWithPage`, the url deduplication, `retryOperation`, and the final
sort comparator) becomes an executable Lean definition. JavaScript strings are
modelled as Lean strings operated on through their character lists, regular
expression scans as explicit left-to-right character scanners with the same
greedy, non-overlapping semantics, and JavaScript number fields as `Rat`
(ratings) and `Nat` (counts). `null` becomes `Option.none`; string truthiness
becomes emptiness tests.
-/

namespace GMap

/-! ### String helpers mirroring the JavaScript string operations used -/

/-- Substring test on character lists: `pat` occurs inside `hay`
(JavaScript `hay.includes(pat)`; the empty pattern is always found). -/
def containsChars (pat : List Char) : List Char → Bool
  | [] => pat.isEmpty
  | c :: rest => pat.isPrefixOf (c :: rest) || containsChars pat rest

/-- JavaScript `s.includes(sub)`. -/
def strIncludes (s sub : String) : Bool :=
  containsChars sub.toList s.toList

/-- Replace the first occurrence of `pat` (JavaScript `String.replace` with a
string pattern replaces only the first occurrence). -/
def replaceFirstChars (pat repl : List Char) : List Char → List Char
  | [] => []
  | c :: rest =>
    if pat.isPrefixOf (c :: rest) then repl ++ (c :: rest).drop pat.length
    else c :: replaceFirstChars pat repl rest

/-- JavaScript `s.replace(pat, repl)` (first occurrence only). -/
def replaceFirst (s pat repl : String) : String :=
  ⟨replaceFirstChars pat.toList repl.toList s.toList⟩

/-- `day.replace('曜日', '')`: day-name to its one-character token. -/
def dayShortOf (day : String) : String :=
  replaceFirst day "曜日" ""

/-- Split a character list at every occurrence of a separator character
(JavaScript `s.split(sep)` for a one-character separator). -/
def splitChar (sep : Char) : List Char → List (List Char)
  | [] => [[]]
  | c :: rest =>
    match splitChar sep rest with
    | [] => [[]]
    | g :: gs => if c == sep then [] :: g :: gs else (c :: g) :: gs

/-- JavaScript `s.split(sep)` for a one-character separator string. -/
def splitStr (sep : Char) (s : String) : List String :=
  (splitChar sep s.toList).map (fun cs => ⟨cs⟩)

/-- JavaScript whitespace trimming (`s.trim()`), restricted to the ASCII
whitespace that can occur in the scraped segments. -/
def trimStr (s : String) : String :=
  ⟨((s.toList.dropWhile Char.isWhitespace).reverse.dropWhile Char.isWhitespace).reverse⟩

/-- JavaScript `s.toLowerCase()` (ASCII case folding; Japanese characters are
unchanged). -/
def lowerStr (s : String) : String :=
  ⟨s.toList.map Char.toLower⟩

/-- `str.split(',').map(s => s.trim()).filter(s => s)` — the comma-separated
term lists used by the address filter. -/
def splitTrim (s : String) : List String :=
  ((splitStr ',' s).map trimStr).filter (fun t => t ≠ "")

/-- `str.split(',').map(s => s.trim().toLowerCase()).filter(s => s)` — the
lower-cased term lists used by the category filters. -/
def splitTrimLower (s : String) : List String :=
  ((splitStr ',' s).map (fun t => lowerStr (trimStr t))).filter (fun t => t ≠ "")

/-- Numeric value of a decimal digit character. -/
def dval (c : Char) : Nat := c.toNat - 48

/-- `parseInt` of a digit string with commas already removed. -/
def natOfDigits (ds : List Char) : Nat :=
  ds.foldl (fun n c => 10 * n + dval c) 0

/-- One of the two yen signs accepted by the budget regular expressions. -/
def isYen (c : Char) : Bool := c == '￥' || c == '¥'

/-- First match of `/[￥¥]([0-9,]+)/` followed by `parseInt` on the captured
group with commas stripped.  A capture consisting only of commas makes
`parseInt` return `NaN`, on which both budget comparisons are false — the same
behaviour as no match, so it is collapsed to `none` here. -/
def firstYenNumber : List Char → Option Nat
  | [] => none
  | c :: rest =>
    if isYen c then
      let run := rest.takeWhile (fun d => d.isDigit || d == ',')
      if run.isEmpty then firstYenNumber rest
      else
        let ds := run.filter Char.isDigit
        if ds.isEmpty then none else some (natOfDigits ds)
    else firstYenNumber rest

/-- First 20 characters (`addr.substring(0, 20)`). -/
def strTake (s : String) (n : Nat) : String :=
  ⟨s.toList.take n⟩

/-- Digit grouping of `Number.prototype.toLocaleString()` in the ja-JP locale:
thousands separated by commas. -/
def withCommas : Nat → List Char → List Char
  | _, [] => []
  | i, c :: rest =>
    if i % 3 = 0 ∧ i ≠ 0 then c :: ',' :: withCommas (i + 1) rest
    else c :: withCommas (i + 1) rest

/-- `n.toLocaleString()`. -/
def commaGroup (n : Nat) : String :=
  ⟨(withCommas 0 (toString n).toList.reverse).reverse⟩

/-! ### Data model (§3 of the specification, shapes taken from the source) -/

/-- A list-stage candidate as pushed by `extractBasicList`. -/
structure Candidate where
  name : String
  rating : ℚ
  reviews : Nat
  url : String
  category : String
  budget : String
  review : String
  listText : String
  deriving DecidableEq

/-- The record returned by `getDetailsWithPage`. -/
structure DetailRecord where
  address : String
  category : String
  budget : String
  businessHours : String
  detailRating : ℚ
  detailReviews : Nat
  deriving DecidableEq

/-- A candidate merged with its detail record (`processChunk`): the spread
`{...target, ...details}` with the explicit overrides and deletions applied. -/
structure MergedResult where
  name : String
  rating : ℚ
  reviews : Nat
  url : String
  category : String
  budget : String
  review : String
  address : String
  businessHours : String
  deriving DecidableEq

/-- Outcome of `checkFilters`. -/
structure FilterOutcome where
  passed : Bool
  reason : String
  deriving DecidableEq

/-- The filter configuration assembled in `src/server.js` (`/api/scrape`). -/
structure Filters where
  address : String
  category : String
  budgetMin : Option Nat
  budgetMax : Option Nat
  days : List String
  hours : String
  maxItems : Nat
  deriving DecidableEq

/-- The merge performed per item in `processChunk` (`src/index.js` lines
513-524): spread of `target` then `details`, then rating/reviews prefer a
strictly positive detail value, category prefers a known candidate value,
budget prefers a non-empty candidate value, the review snippet keeps the
candidate value, and the `detailRating`/`detailReviews`/`listText` keys are
deleted. -/
def mergeResult (target : Candidate) (details : DetailRecord) : MergedResult where
  name := target.name
  url := target.url
  rating := if 0 < details.detailRating then details.detailRating else target.rating
  reviews := if 0 < details.detailReviews then details.detailReviews else target.reviews
  category :=
    if target.category ≠ "" ∧ target.category ≠ "Unknown" then target.category
    else if details.category ≠ "" then details.category else "Unknown"
  budget :=
    if target.budget ≠ "" then target.budget
    else if details.budget ≠ "" then details.budget else ""
  review := if target.review ≠ "" then target.review else ""
  address := details.address
  businessHours := details.businessHours

/-! ### Pre-filter (`search`, `src/index.js` lines 393-445) -/

/-- Which pre-filter criterion rejected a candidate (the four counters of
`preFilteredOut`). -/
inductive PreReason
  | rating
  | reviews
  | category
  | budget
  deriving DecidableEq

/-- The pre-filter loop body of `search`: the first `continue` taken for a
candidate, or `none` when it is pushed onto `targets`.  Rating and review
count default to 0 (`parseFloat(c.rating) || 0`, `parseInt(c.reviews) || 0`),
already reflected in the field types. -/
def preFilterReason (c : Candidate) (minRating : ℚ) (minReviews : Nat)
    (filters : Filters) : Option PreReason :=
  if 0 < minRating ∧ c.rating < minRating then some .rating
  else if 0 < minReviews ∧ 0 < c.reviews ∧ c.reviews < minReviews then some .reviews
  else if filters.category ≠ "" ∧ splitTrimLower filters.category ≠ [] ∧
      ¬ (splitTrimLower filters.category).any
        (fun k => strIncludes (lowerStr c.category) k || strIncludes (lowerStr c.listText) k) then
    some .category
  else if (filters.budgetMin.isSome || filters.budgetMax.isSome) && (c.budget != "") &&
      (match firstYenNumber c.budget.toList with
       | some price =>
         (match filters.budgetMin with | some m => decide (price < m) | none => false) ||
         (match filters.budgetMax with | some m => decide (m < price) | none => false)
       | none => false) then
    some .budget
  else none

/-! ### Time-of-day check (`checkOpenAtTime`, `src/index.js` lines 726-804) -/

/-- Attempt of `/(\d{1,2}):(\d{2})/` at the head of the list with a two-digit
hour (the greedy first try). -/
def matchClock2 : List Char → Option Nat
  | a :: b :: t :: d :: e :: _ =>
    if a.isDigit && b.isDigit && t == ':' && d.isDigit && e.isDigit then
      some ((10 * dval a + dval b) * 60 + (10 * dval d + dval e))
    else none
  | _ => none

/-- Attempt of `/(\d{1,2}):(\d{2})/` at the head of the list with a one-digit
hour (the backtracked second try). -/
def matchClock1 : List Char → Option Nat
  | a :: t :: d :: e :: _ =>
    if a.isDigit && t == ':' && d.isDigit && e.isDigit then
      some (dval a * 60 + (10 * dval d + dval e))
    else none
  | _ => none

/-- First match of `/(\d{1,2}):(\d{2})/` anywhere in the list, as minutes
since midnight (the `parseTime` closure of `checkOpenAtTime`). -/
def parseTimeChars : List Char → Option Nat
  | [] => none
  | c :: rest =>
    match matchClock2 (c :: rest) with
    | some v => some v
    | none =>
      match matchClock1 (c :: rest) with
      | some v => some v
      | none => parseTimeChars rest

/-- `parseTime` on a string; `none` both for the empty string and for a
string without a clock pattern. -/
def parseTime (s : String) : Option Nat :=
  parseTimeChars s.toList

/-- Attempt of `/(\d{1,2})時(\d{2})分/` at the head with a two-digit hour. -/
def matchBiz2 : List Char → Option Nat
  | a :: b :: t :: d :: e :: f :: _ =>
    if a.isDigit && b.isDigit && t == '時' && d.isDigit && e.isDigit && f == '分' then
      some ((10 * dval a + dval b) * 60 + (10 * dval d + dval e))
    else none
  | _ => none

/-- Attempt of `/(\d{1,2})時(\d{2})分/` at the head with a one-digit hour. -/
def matchBiz1 : List Char → Option Nat
  | a :: t :: d :: e :: f :: _ =>
    if a.isDigit && t == '時' && d.isDigit && e.isDigit && f == '分' then
      some (dval a * 60 + (10 * dval d + dval e))
    else none
  | _ => none

/-- Fuel-driven scanner for `/(\d{1,2})時(\d{2})分/g`: left-to-right,
non-overlapping, greedy on the hour digits.  Each step consumes at least one
character, so a fuel equal to the list length is enough. -/
def bizMatchesAux : Nat → List Char → List Nat
  | 0, _ => []
  | _ + 1, [] => []
  | n + 1, c :: rest =>
    match matchBiz2 (c :: rest) with
    | some v => v :: bizMatchesAux n (rest.drop 5)
    | none =>
      match matchBiz1 (c :: rest) with
      | some v => v :: bizMatchesAux n (rest.drop 4)
      | none => bizMatchesAux n rest

/-- All matches of `/(\d{1,2})時(\d{2})分/g`, each as minutes since
midnight. -/
def bizMatches (cs : List Char) : List Nat :=
  bizMatchesAux cs.length cs

/-- The `parseBusinessTime` closure: the first two `時/分` matches as the
open and close minutes, or `none` when there are fewer than two. -/
def parseBusinessTimeChars (cs : List Char) : Option (Nat × Nat) :=
  match bizMatches cs with
  | o :: c :: _ => some (o, c)
  | _ => none

/-- The window containment test of `checkOpenAtTime`: inclusive-open /
exclusive-close when `close > open`, OR semantics across midnight when
`close <= open`. -/
def isOpenWindow (openM closeM t : Nat) : Bool :=
  if openM < closeM then decide (openM ≤ t) && decide (t < closeM)
  else decide (openM ≤ t) || decide (t < closeM)

/-- Split a segment at its first `:` (JavaScript `indexOf` plus the two
`substring` calls); `none` when the segment has no colon. -/
def colonSplitChars (cs : List Char) : Option (List Char × List Char) :=
  let pre := cs.takeWhile (fun c => c != ':')
  if pre.length = cs.length then none else some (pre, cs.drop (pre.length + 1))

/-- The per-segment body of the `checkOpenAtTime` loop: `true` when the
segment matches a configured day (or no days are configured), parses to a
time window, and the window contains the target minutes. -/
def segmentOpen (targetDays : List String) (t : Nat) (segment : String) : Bool :=
  match colonSplitChars segment.toList with
  | none => false
  | some (dayPart, timePart) =>
    (if targetDays.length > 0 then
       (targetDays.map dayShortOf).any (fun d => containsChars d.toList dayPart)
     else true) &&
    (match parseBusinessTimeChars timePart with
     | none => false
     | some (o, c) => isOpenWindow o c t)

/-- `checkOpenAtTime(businessHours, targetTime, targetDays)`: passes when the
target time does not parse, otherwise when some `/`-separated segment reports
the target time as open. -/
def checkOpenAtTime (businessHours targetTime : String) (targetDays : List String) :
    FilterOutcome :=
  match parseTime targetTime with
  | none => ⟨true, ""⟩
  | some t =>
    if ((splitStr '/' businessHours).map trimStr).any (segmentOpen targetDays t) then ⟨true, ""⟩
    else ⟨false, targetTime ++ "に営業していない"⟩

/-! ### Post-filter (`checkFilters`, `src/index.js` lines 629-717)

The JavaScript function is a sequence of early returns; each stage below
returns `some reason` when its `return { passed: false, ... }` fires, and the
stages are combined by first-rejection-wins. -/

/-- First-rejection-wins combination of two stages. -/
def orReason : Option String → Option String → Option String
  | some r, _ => some r
  | none, o => o

/-- Review-count stage. -/
def reviewsReason (item : MergedResult) (minReviews : Nat) : Option String :=
  if 0 < minReviews ∧ item.reviews < minReviews then
    some ("レビュー数不足 (" ++ toString item.reviews ++ "件 < " ++ toString minReviews ++ "件)")
  else none

/-- Address stage: case-sensitive substring OR over the comma-separated
terms. -/
def addressReason (item : MergedResult) (filters : Filters) : Option String :=
  if filters.address ≠ "" ∧ splitTrim filters.address ≠ [] ∧
      ¬ (splitTrim filters.address).any (fun k => strIncludes item.address k) then
    some ("住所不一致 (" ++
      (if strTake item.address 20 ≠ "" then strTake item.address 20 else "不明") ++ "...)")
  else none

/-- Category stage: case-insensitive substring OR over the comma-separated
terms (against the merged category only). -/
def categoryReason (item : MergedResult) (filters : Filters) : Option String :=
  if filters.category ≠ "" ∧ splitTrimLower filters.category ≠ [] ∧
      ¬ (splitTrimLower filters.category).any (fun k => strIncludes (lowerStr item.category) k) then
    some ("カテゴリ不一致 (" ++ (if item.category ≠ "" then item.category else "不明") ++ ")")
  else none

/-- Budget stage: parses the first yen amount out of the budget text and
compares it with the configured bounds. -/
def budgetReason (item : MergedResult) (filters : Filters) : Option String :=
  if (filters.budgetMin.isSome || filters.budgetMax.isSome) && (item.budget != "") then
    match firstYenNumber item.budget.toList with
    | none => none
    | some price =>
      match filters.budgetMin with
      | some m =>
        if price < m then
          some ("予算が下限未満 (" ++ item.budget ++ " < ￥" ++ commaGroup m ++ ")")
        else
          match filters.budgetMax with
          | some mx =>
            if mx < price then
              some ("予算が上限超過 (" ++ item.budget ++ " > ￥" ++ commaGroup mx ++ ")")
            else none
          | none => none
      | none =>
        match filters.budgetMax with
        | some mx =>
          if mx < price then
            some ("予算が上限超過 (" ++ item.budget ++ " > ￥" ++ commaGroup mx ++ ")")
          else none
        | none => none
  else none

/-- Loop body of the day-of-week stage: the configured day counts as open
when its token occurs in the business-hours text, unless the text also
contains a closed marker (`定休` or `休み`) somewhere. -/
def dayAvailable (hours : String) (day : String) : Bool :=
  let dayShort := dayShortOf day
  if (strIncludes (lowerStr hours) "定休" || strIncludes (lowerStr hours) "休み") &&
      strIncludes hours dayShort then false
  else strIncludes hours dayShort

/-- Day-of-week stage: skipped when no days are configured or the
business-hours text is empty; otherwise fails when no configured day is
available. -/
def daysReason (item : MergedResult) (filters : Filters) : Option String :=
  if filters.days.length > 0 ∧ item.businessHours ≠ "" ∧
      ¬ filters.days.any (dayAvailable item.businessHours) then
    some ("指定曜日(" ++ String.intercalate "・" (filters.days.map dayShortOf) ++ ")に営業していない")
  else none

/-- Time-of-day stage: skipped when no time is configured or the
business-hours text is empty; otherwise delegates to `checkOpenAtTime`. -/
def hoursReason (item : MergedResult) (filters : Filters) : Option String :=
  if filters.hours ≠ "" ∧ item.businessHours ≠ "" then
    let timeResult := checkOpenAtTime item.businessHours filters.hours filters.days
    if timeResult.passed then none else some timeResult.reason
  else none

/-- The first rejection reason of `checkFilters`, or `none` when every stage
passes. -/
def failReason (item : MergedResult) (minReviews : Nat) (filters : Filters) : Option String :=
  orReason (reviewsReason item minReviews)
    (orReason (addressReason item filters)
      (orReason (categoryReason item filters)
        (orReason (budgetReason item filters)
          (orReason (daysReason item filters) (hoursReason item filters)))))

/-- `checkFilters(item, minReviews, filters)`. -/
def checkFilters (item : MergedResult) (minReviews : Nat) (filters : Filters) : FilterOutcome :=
  match failReason item minReviews filters with
  | some r => ⟨false, r⟩
  | none => ⟨true, ""⟩

/-! ### Rating extraction (`extractBasicList` lines 994-1008,
`getDetailsWithPage` lines 1454-1458) -/

/-- All matches of `/([1-5]\.[0-9])/g` over the item text, scanned left to
right without overlap, as rationals. -/
def listRatingMatches : List Char → List ℚ
  | a :: b :: c :: rest =>
    if ('1' ≤ a ∧ a ≤ '5') ∧ b = '.' ∧ c.isDigit then
      mkRat (10 * dval a + dval c) 10 :: listRatingMatches rest
    else listRatingMatches (b :: c :: rest)
  | _ => []

/-- The list-stage rating: the first matched decimal lying in `[1.0, 5.0]`,
default 0 (unknown). -/
def extractRating (text : String) : ℚ :=
  ((listRatingMatches text.toList).find? (fun v => decide ((1 : ℚ) ≤ v ∧ v ≤ 5))).getD 0

/-- First match of `/([0-9]\.[0-9])/` in the detail-page rating label. -/
def findDetailRating : List Char → Option ℚ
  | a :: b :: c :: rest =>
    if a.isDigit ∧ b = '.' ∧ c.isDigit then some (mkRat (10 * dval a + dval c) 10)
    else findDetailRating (b :: c :: rest)
  | _ => none

/-- The detail-stage rating parsed by `getDetailsWithPage` from the aria
label of the rating element: no range check is applied, default 0. -/
def detailRatingOf (ratingLabel : String) : ℚ :=
  (findDetailRating ratingLabel.toList).getD 0

/-! ### Deduplication by url (`extractBasicList`, lines 1122-1130) -/

/-- The dedup loop with its `urlMap` of already seen urls. -/
def dedupGo (seen : List String) : List Candidate → List Candidate
  | [] => []
  | i :: rest =>
    if i.url ∈ seen then dedupGo seen rest
    else i :: dedupGo (i.url :: seen) rest

/-- URL-based deduplication applied to the parsed item list before it is
returned. -/
def dedupByUrl (items : List Candidate) : List Candidate :=
  dedupGo [] items

/-! ### Retry wrapper (`retryOperation`, lines 223-247) -/

/-- The attempt loop of `retryOperation`: runs the operation once per attempt
number, returns the first success, and after the last attempt throws the last
recorded error (`none` models the never-assigned `lastError` of a zero-length
loop). -/
def runAttempts (op : Nat → Except ε α) : List Nat → Option ε → Except (Option ε) α
  | [], lastError => .error lastError
  | a :: rest, _ =>
    match op a with
    | .ok r => .ok r
    | .error e => runAttempts op rest (some e)

/-- `retryOperation(fn, name, maxRetries)`: attempts are numbered 1 through
`maxAttempts`. -/
def retryOperation (op : Nat → Except ε α) (maxAttempts : Nat) : Except (Option ε) α :=
  runAttempts op (List.range' 1 maxAttempts) none

/-- Number of times the operation is invoked by the attempt loop. -/
def attemptsUsed (op : Nat → Except ε α) : List Nat → Nat
  | [] => 0
  | a :: rest =>
    match op a with
    | .ok _ => 1
    | .error _ => 1 + attemptsUsed op rest

/-! ### Final ranking (`search`, lines 600-611) -/

/-- The sort comparator as a relation: `a` may precede `b` when the
comparator value `ratingB - ratingA`, tie-broken by `reviewsB - reviewsA`, is
not positive. -/
def resultPrec (a b : MergedResult) : Prop :=
  b.rating < a.rating ∨ (a.rating = b.rating ∧ b.reviews ≤ a.reviews)

instance : DecidableRel resultPrec := fun a b =>
  inferInstanceAs (Decidable (_ ∨ _ ∧ _))

/-- `finalResults.sort(comparator)`: `Array.prototype.sort` is stable, and a
stable sort for a total preorder is unique, so it is modelled by insertion
sort on the comparator relation. -/
def sortResults (l : List MergedResult) : List MergedResult :=
  l.insertionSort resultPrec

/-! ### The pure pipeline after extraction (`search`, lines 387-613)

`detailsOf` abstracts the per-item detail fetch: `none` models a fetch that
failed after its retries (the item is counted as failed and dropped).  The
scheduler visits chunk after chunk in list order and appends results in that
same order, so the processing reduces to a filterMap over the pre-filtered
targets. -/

def runPipeline (candidates : List Candidate) (detailsOf : Candidate → Option DetailRecord)
    (minRating : ℚ) (minReviews : Nat) (filters : Filters) : List MergedResult :=
  let targets := candidates.filter
    (fun c => (preFilterReason c minRating minReviews filters).isNone)
  let processed := targets.filterMap (fun t =>
    match detailsOf t with
    | none => none
    | some d =>
      let m := mergeResult t d
      if (checkFilters m minReviews filters).passed then some m else none)
  sortResults processed

/-! ### Helper lemmas -/

/-- A string append is non-empty when its left part is. -/
lemma append_ne_empty_left (a b : String) (ha : a ≠ "") : a ++ b ≠ "" := by
  intro h
  apply ha
  have hdata : a.data ++ b.data = [] := by
    have := congrArg String.data h
    simpa [String.data_append] using this
  have : a.data = [] := (List.append_eq_nil.mp hdata).1
  cases a with
  | mk d => simp only at this; simp [this]

/-- A string append is non-empty when its right part is. -/
lemma append_ne_empty_right (a b : String) (hb : b ≠ "") : a ++ b ≠ "" := by
  intro h
  apply hb
  have hdata : a.data ++ b.data = [] := by
    have := congrArg String.data h
    simpa [String.data_append] using this
  have : b.data = [] := (List.append_eq_nil.mp hdata).2
  cases b with
  | mk d => simp only at this; simp [this]

/-- `orReason` yields `none` exactly when both stages pass. -/
lemma orReason_eq_none {a b : Option String} : orReason a b = none ↔ a = none ∧ b = none := by
  cases a <;> simp [orReason]

/-- `orReason` yields a reason only from one of its two stages. -/
lemma orReason_eq_some {a b : Option String} {r : String} :
    orReason a b = some r → a = some r ∨ b = some r := by
  cases a with
  | none => intro h; exact Or.inr h
  | some x => intro h; exact Or.inl h

/-! ### Claim theorems -/

/-- Claim C1: the merged result takes rating and review count from the detail
record when the detail value is strictly positive and from the candidate
otherwise; category prefers a present, non-Unknown candidate value and falls
back to the detail category with default Unknown; budget prefers a non-empty
candidate value and falls back to the detail budget; the review snippet always
comes from the candidate. -/
theorem C1_merge_precedence (target : Candidate) (details : DetailRecord) :
    (0 < details.detailRating → (mergeResult target details).rating = details.detailRating) ∧
    (¬ 0 < details.detailRating → (mergeResult target details).rating = target.rating) ∧
    (0 < details.detailReviews → (mergeResult target details).reviews = details.detailReviews) ∧
    (details.detailReviews = 0 → (mergeResult target details).reviews = target.reviews) ∧
    (target.category ≠ "" → target.category ≠ "Unknown" →
      (mergeResult target details).category = target.category) ∧
    (target.category = "" ∨ target.category = "Unknown" →
      (mergeResult target details).category =
        if details.category ≠ "" then details.category else "Unknown") ∧
    (target.budget ≠ "" → (mergeResult target details).budget = target.budget) ∧
    (target.budget = "" → (mergeResult target details).budget = details.budget) ∧
    (mergeResult target details).review = target.review := by
  refine ⟨?_, ?_, ?_, ?_, ?_, ?_, ?_, ?_, ?_⟩
  · intro h; simp [mergeResult, h]
  · intro h; simp [mergeResult, h]
  · intro h; simp [mergeResult, h]
  · intro h; simp [mergeResult, h]
  · intro h1 h2; simp [mergeResult, h1, h2]
  · rintro (h | h) <;> simp [mergeResult, h]
  · intro h; simp [mergeResult, h]
  · intro h
    by_cases h2 : details.budget = "" <;> simp [mergeResult, h, h2]
  · by_cases h : target.review = "" <;> simp [mergeResult, h]

/-- Witness for C1 at concrete inputs: one merge where the detail values win
and one where the candidate values win. -/
theorem C1_merge_precedence_witness :
    (mergeResult ⟨"n", 4, 10, "u", "Unknown", "", "snippet", "t"⟩
        ⟨"addr", "居酒屋", "￥1,000～2,000", "h", mkRat 45 10, 120⟩).rating = mkRat 45 10 ∧
    (mergeResult ⟨"n", 4, 10, "u", "Unknown", "", "snippet", "t"⟩
        ⟨"addr", "居酒屋", "￥1,000～2,000", "h", mkRat 45 10, 120⟩).reviews = 120 ∧
    (mergeResult ⟨"n", 4, 10, "u", "Unknown", "", "snippet", "t"⟩
        ⟨"addr", "居酒屋", "￥1,000～2,000", "h", mkRat 45 10, 120⟩).category = "居酒屋" ∧
    (mergeResult ⟨"n", 4, 10, "u", "Unknown", "", "snippet", "t"⟩
        ⟨"addr", "居酒屋", "￥1,000～2,000", "h", mkRat 45 10, 120⟩).budget = "￥1,000～2,000" ∧
    (mergeResult ⟨"n", 4, 10, "u", "カフェ", "￥500～999", "snippet", "t"⟩
        ⟨"addr", "居酒屋", "", "h", 0, 0⟩).rating = 4 ∧
    (mergeResult ⟨"n", 4, 10, "u", "カフェ", "￥500～999", "snippet", "t"⟩
        ⟨"addr", "居酒屋", "", "h", 0, 0⟩).reviews = 10 ∧
    (mergeResult ⟨"n", 4, 10, "u", "カフェ", "￥500～999", "snippet", "t"⟩
        ⟨"addr", "居酒屋", "", "h", 0, 0⟩).category = "カフェ" ∧
    (mergeResult ⟨"n", 4, 10, "u", "カフェ", "￥500～999", "snippet", "t"⟩
        ⟨"addr", "居酒屋", "", "h", 0, 0⟩).review = "snippet" := by
  have h1 := C1_merge_precedence ⟨"n", 4, 10, "u", "Unknown", "", "snippet", "t"⟩
    ⟨"addr", "居酒屋", "￥1,000～2,000", "h", mkRat 45 10, 120⟩
  have h2 := C1_merge_precedence ⟨"n", 4, 10, "u", "カフェ", "￥500～999", "snippet", "t"⟩
    ⟨"addr", "居酒屋", "", "h", 0, 0⟩
  refine ⟨h1.1 (by decide), h1.2.2.1 (by decide), ?_, h1.2.2.2.2.2.2.2.1 rfl,
    h2.2.1 (by decide), h2.2.2.2.1 rfl, h2.2.2.2.2.1 (by decide) (by decide),
    h2.2.2.2.2.2.2.2.2⟩
  have := h1.2.2.2.2.2.1 (Or.inr rfl)
  rw [this]
  decide

/-- Claim C2 counterexample: a candidate with unknown rating (0) and a
configured minimum of 3 is rejected by the pre-filter on the rating
criterion, while the claim says an unknown rating is not rejected there. -/
theorem C2_counterexample :
    (Candidate.mk "X" 0 0 "u" "Unknown" "" "" "").rating = 0 ∧
    preFilterReason (Candidate.mk "X" 0 0 "u" "Unknown" "" "" "") 3 0
      (Filters.mk "" "" none none [] "" 0) = some PreReason.rating := by
  constructor
  · rfl
  · decide

/-- Claim C2, amended: the pre-filter rating criterion rejects exactly when a
positive minimum is configured and the (defaulted-to-0, so also unknown)
rating is below it; the review-count criterion rejects exactly when it is
reached, a positive minimum is configured, and the review count is known
(positive) and below it — so unknown review counts pass through while unknown
ratings do not. -/
theorem C2_pre_filter_unknowns (c : Candidate) (minRating : ℚ) (minReviews : Nat)
    (filters : Filters) :
    (preFilterReason c minRating minReviews filters = some PreReason.rating ↔
      0 < minRating ∧ c.rating < minRating) ∧
    (preFilterReason c minRating minReviews filters = some PreReason.reviews ↔
      ¬ (0 < minRating ∧ c.rating < minRating) ∧
        0 < minReviews ∧ 0 < c.reviews ∧ c.reviews < minReviews) := by
  unfold preFilterReason
  split_ifs with h1 h2 h3 h4 <;> simp_all

/-- Claim C3 counterexample: the detail-page rating scan accepts any
`digit.digit` value with no range check, so a rating label reading `9.9つ星`
produces a detail rating of 9.9 > 5, and the merge propagates it into the
merged record. -/
theorem C3_counterexample :
    ¬ (detailRatingOf "9.9つ星" ≤ 5) ∧
    (mergeResult (Candidate.mk "店" 0 0 "u" "Unknown" "" "" "")
        (DetailRecord.mk "" "Unknown" "" "" (detailRatingOf "9.9つ星") 0)).rating =
      detailRatingOf "9.9つ星" := by
  constructor
  · decide
  · decide

/-- Every value matched by the detail rating scan is non-negative. -/
lemma findDetailRating_nonneg : ∀ (cs : List Char) (v : ℚ),
    findDetailRating cs = some v → 0 ≤ v := by
  intro cs
  induction cs with
  | nil => intro v h; simp [findDetailRating] at h
  | cons a tail ih =>
    intro v h
    match tail, ih, h with
    | [], _, h => simp [findDetailRating] at h
    | [b], _, h => simp [findDetailRating] at h
    | b :: c :: rest, ih, h =>
      rw [findDetailRating] at h
      split_ifs at h with hd
      · have hv : v = mkRat (10 * dval a + dval c) 10 := by
          injection h with h
          exact h.symm
        rw [hv, Rat.mkRat_eq_div]
        positivity
      · exact ih v h

/-- Claim C3, amended: list-stage ratings always lie in `[0, 5]` (the source
checks the matched value against that range); detail-stage ratings are always
non-negative but carry no upper check, and the merged rating lies in `[0, 5]`
whenever both merged inputs do. -/
theorem C3_rating_bounds :
    (∀ text : String, 0 ≤ extractRating text ∧ extractRating text ≤ 5) ∧
    (∀ ratingLabel : String, 0 ≤ detailRatingOf ratingLabel) ∧
    (∀ (c : Candidate) (d : DetailRecord), 0 ≤ c.rating → c.rating ≤ 5 →
      0 ≤ d.detailRating → d.detailRating ≤ 5 →
      0 ≤ (mergeResult c d).rating ∧ (mergeResult c d).rating ≤ 5) := by
  refine ⟨?_, ?_, ?_⟩
  · intro text
    unfold extractRating
    cases h : (listRatingMatches text.toList).find? (fun v => decide ((1 : ℚ) ≤ v ∧ v ≤ 5)) with
    | none => simp [h]
    | some v =>
      have hp := List.find?_some h
      have hv : (1 : ℚ) ≤ v ∧ v ≤ 5 := of_decide_eq_true hp
      simp only [h, Option.getD_some]
      exact ⟨le_trans zero_le_one hv.1, hv.2⟩
  · intro ratingLabel
    unfold detailRatingOf
    cases h : findDetailRating ratingLabel.toList with
    | none => simp [h]
    | some v =>
      simp only [h, Option.getD_some]
      exact findDetailRating_nonneg _ v h
  · intro c d hc0 hc5 hd0 hd5
    unfold mergeResult
    dsimp only
    split_ifs with h
    · exact ⟨hd0, hd5⟩
    · exact ⟨hc0, hc5⟩

/-- Witness for C3 at concrete inputs: a list text, a detail label and a
merge within bounds. -/
theorem C3_rating_bounds_witness :
    (0 ≤ extractRating "お店4.5(1,234)" ∧ extractRating "お店4.5(1,234)" ≤ 5) ∧
    (0 ≤ detailRatingOf "4.5 つ星の評価") ∧
    (0 ≤ (mergeResult ⟨"n", mkRat 42 10, 10, "u", "Unknown", "", "", "t"⟩
        ⟨"", "Unknown", "", "", mkRat 45 10, 0⟩).rating ∧
      (mergeResult ⟨"n", mkRat 42 10, 10, "u", "Unknown", "", "", "t"⟩
        ⟨"", "Unknown", "", "", mkRat 45 10, 0⟩).rating ≤ 5) := by
  refine ⟨C3_rating_bounds.1 "お店4.5(1,234)", C3_rating_bounds.2.1 "4.5 つ星の評価", ?_⟩
  exact C3_rating_bounds.2.2 ⟨"n", mkRat 42 10, 10, "u", "Unknown", "", "", "t"⟩
    ⟨"", "Unknown", "", "", mkRat 45 10, 0⟩ (by decide) (by decide) (by decide) (by decide)

/-- Every record produced by the dedup loop has a url outside the seen set. -/
lemma dedupGo_not_mem_seen : ∀ (items : List Candidate) (seen : List String)
    (r : Candidate), r ∈ dedupGo seen items → r.url ∉ seen := by
  intro items
  induction items with
  | nil => intro seen r hr; simp [dedupGo] at hr
  | cons i rest ih =>
    intro seen r hr
    rw [dedupGo] at hr
    by_cases h : i.url ∈ seen
    · rw [if_pos h] at hr
      exact ih seen r hr
    · rw [if_neg h] at hr
      rcases List.mem_cons.mp hr with rfl | hr2
      · exact h
      · intro hmem
        exact ih (i.url :: seen) r hr2 (List.mem_cons_of_mem _ hmem)

/-- The urls of the dedup loop output are pairwise distinct. -/
lemma dedupGo_nodup : ∀ (items : List Candidate) (seen : List String),
    ((dedupGo seen items).map Candidate.url).Nodup := by
  intro items
  induction items with
  | nil => intro seen; simp [dedupGo]
  | cons i rest ih =>
    intro seen
    rw [dedupGo]
    by_cases h : i.url ∈ seen
    · rw [if_pos h]; exact ih seen
    · rw [if_neg h]
      simp only [List.map_cons, List.nodup_cons]
      refine ⟨?_, ih (i.url :: seen)⟩
      intro hmem
      rcases List.mem_map.mp hmem with ⟨r, hr, hru⟩
      exact dedupGo_not_mem_seen rest (i.url :: seen) r hr (hru ▸ List.mem_cons_self _ _)

/-- A url occurs in the dedup loop output exactly when it occurs in the input
and is not already seen. -/
lemma dedupGo_mem_url : ∀ (items : List Candidate) (seen : List String) (u : String),
    u ∈ (dedupGo seen items).map Candidate.url ↔
      u ∈ items.map Candidate.url ∧ u ∉ seen := by
  intro items
  induction items with
  | nil => intro seen u; simp [dedupGo]
  | cons i rest ih =>
    intro seen u
    rw [dedupGo]
    by_cases h : i.url ∈ seen
    · rw [if_pos h]
      rw [ih seen u]
      simp only [List.map_cons, List.mem_cons]
      constructor
      · rintro ⟨hm, hs⟩; exact ⟨Or.inr hm, hs⟩
      · rintro ⟨hm | hm, hs⟩
        · exact absurd (hm ▸ h) hs
        · exact ⟨hm, hs⟩
    · rw [if_neg h]
      simp only [List.map_cons, List.mem_cons, ih (i.url :: seen) u]
      by_cases hu : u = i.url
      · subst hu; simp [h]
      · simp only [List.mem_cons, hu, false_or]

/-- Every record in the dedup loop output is the first input record carrying
its url. -/
lemma dedupGo_first : ∀ (items : List Candidate) (seen : List String) (r : Candidate),
    r ∈ dedupGo seen items →
      items.find? (fun x => decide (x.url = r.url)) = some r := by
  intro items
  induction items with
  | nil => intro seen r hr; simp [dedupGo] at hr
  | cons i rest ih =>
    intro seen r hr
    rw [dedupGo] at hr
    by_cases h : i.url ∈ seen
    · rw [if_pos h] at hr
      have hne : i.url ≠ r.url := by
        intro he
        exact dedupGo_not_mem_seen rest seen r hr (he ▸ h)
      rw [List.find?_cons_of_neg _ (by simpa using hne)]
      exact ih seen r hr
    · rw [if_neg h] at hr
      rcases List.mem_cons.mp hr with rfl | hr2
      · rw [List.find?_cons_of_pos _ (by simp)]
      · have hns := dedupGo_not_mem_seen rest (i.url :: seen) r hr2
        have hne : i.url ≠ r.url := by
          intro he
          exact hns (he ▸ List.mem_cons_self _ _)
        rw [List.find?_cons_of_neg _ (by simpa using hne)]
        exact ih (i.url :: seen) r hr2

/-- Claim C4: deduplication by url keeps exactly one record per distinct url
of the input — the output urls are pairwise distinct and are exactly the
input urls — and each kept record is the first-encountered occurrence of its
url, carried over with all its fields. -/
theorem C4_dedup_first_wins (items : List Candidate) :
    ((dedupByUrl items).map Candidate.url).Nodup ∧
    (∀ u, u ∈ (dedupByUrl items).map Candidate.url ↔ u ∈ items.map Candidate.url) ∧
    (∀ r, r ∈ dedupByUrl items →
      items.find? (fun x => decide (x.url = r.url)) = some r) := by
  refine ⟨dedupGo_nodup items [], ?_, ?_⟩
  · intro u
    rw [dedupByUrl, dedupGo_mem_url items [] u]
    simp
  · intro r hr
    exact dedupGo_first items [] r hr

/-- Witness for C4 on a concrete list with a duplicated url: the second
occurrence is dropped and the kept record is the first occurrence. -/
theorem C4_dedup_first_wins_witness :
    ((dedupByUrl [⟨"A", 4, 10, "u1", "Unknown", "", "", ""⟩,
        ⟨"B", 3, 5, "u2", "Unknown", "", "", ""⟩,
        ⟨"Adup", 1, 2, "u1", "Unknown", "", "", ""⟩]).map Candidate.url).Nodup ∧
    [Candidate.mk "A" 4 10 "u1" "Unknown" "" "" "",
        ⟨"B", 3, 5, "u2", "Unknown", "", "", ""⟩,
        ⟨"Adup", 1, 2, "u1", "Unknown", "", "", ""⟩].find?
      (fun x => decide (x.url = (Candidate.mk "A" 4 10 "u1" "Unknown" "" "" "").url)) =
      some ⟨"A", 4, 10, "u1", "Unknown", "", "", ""⟩ := by
  have h := C4_dedup_first_wins [⟨"A", 4, 10, "u1", "Unknown", "", "", ""⟩,
    ⟨"B", 3, 5, "u2", "Unknown", "", "", ""⟩,
    ⟨"Adup", 1, 2, "u1", "Unknown", "", "", ""⟩]
  exact ⟨h.1, h.2.2 ⟨"A", 4, 10, "u1", "Unknown", "", "", ""⟩ (by decide)⟩

/-- Claim C5: for the business-hours segment `月: 18時00分～5時00分` with
configured day `月曜日`, the time-of-day check passes at 23:00 and fails at
10:00; and in general a window with `close <= open` spans midnight, the
target counting as open exactly when it is at or after the opening minute or
strictly before the closing minute. -/
theorem C5_midnight_wrap :
    (checkOpenAtTime "月: 18時00分～5時00分" "23:00" ["月曜日"]).passed = true ∧
    (checkOpenAtTime "月: 18時00分～5時00分" "10:00" ["月曜日"]).passed = false ∧
    (∀ openM closeM t : Nat, closeM ≤ openM →
      (isOpenWindow openM closeM t = (decide (openM ≤ t) || decide (t < closeM)))) := by
  refine ⟨by decide, by decide, ?_⟩
  intro openM closeM t h
  rw [isOpenWindow, if_neg (by omega)]

/-- Witness for C5 on the concrete window 18:00-5:00: 23:00 is open because
it is after opening, 10:00 is closed. -/
theorem C5_midnight_wrap_witness :
    (300 ≤ 1080 ∧
      isOpenWindow 1080 300 1380 = (decide ((1080 : Nat) ≤ 1380) || decide ((1380 : Nat) < 300))) ∧
    isOpenWindow 1080 300 600 = (decide ((1080 : Nat) ≤ 600) || decide ((600 : Nat) < 300)) := by
  exact ⟨⟨by decide, C5_midnight_wrap.2.2 1080 300 1380 (by decide)⟩,
    C5_midnight_wrap.2.2 1080 300 600 (by decide)⟩

/-- Claim C6 counterexample: with day `月曜日` configured, an item whose
business-hours text is empty contains no configured day token — so by the
claim it should be rejected — yet the post-filter passes it, because the day
check is skipped entirely for an empty business-hours text. -/
theorem C6_counterexample :
    (Filters.mk "" "" none none ["月曜日"] "" 0).days ≠ [] ∧
    (∀ d ∈ (Filters.mk "" "" none none ["月曜日"] "" 0).days,
      dayAvailable (MergedResult.mk "X" 0 0 "u" "Unknown" "" "" "" "").businessHours d = false) ∧
    (checkFilters (MergedResult.mk "X" 0 0 "u" "Unknown" "" "" "" "") 0
      (Filters.mk "" "" none none ["月曜日"] "" 0)).passed = true := by
  refine ⟨by decide, by decide, by decide⟩

/-- Claim C6, amended: when day terms are configured and the business-hours
text is non-empty, the post-filter rejects any item in which no configured
day is available — a day counts as unavailable when its token is missing from
the text or the text carries a closed marker alongside it. -/
theorem C6_day_filter (item : MergedResult) (minReviews : Nat) (filters : Filters)
    (hdays : filters.days ≠ []) (hhours : item.businessHours ≠ "")
    (hnone : ∀ d ∈ filters.days, dayAvailable item.businessHours d = false) :
    (checkFilters item minReviews filters).passed = false := by
  cases hf : failReason item minReviews filters with
  | some r => simp [checkFilters, hf]
  | none =>
    exfalso
    rw [failReason] at hf
    rw [orReason_eq_none] at hf
    rw [orReason_eq_none] at hf
    have hdaysNone : daysReason item filters = none := by
      have h3 := hf.2.2
      rw [orReason_eq_none] at h3
      have h4 := h3.2
      rw [orReason_eq_none] at h4
      have h5 := h4.2
      rw [orReason_eq_none] at h5
      exact h5.1
    rw [daysReason] at hdaysNone
    rw [if_pos] at hdaysNone
    · exact Option.some_ne_none _ hdaysNone
    · refine ⟨List.length_pos.mpr hdays, hhours, ?_⟩
      simp only [List.any_eq_true, not_exists, not_and]
      intro d hd
      simp [hnone d hd]

/-- Witness for C6: a concrete item open only on Tuesday is rejected when
Monday is required. -/
theorem C6_day_filter_witness :
    (checkFilters (MergedResult.mk "X" 0 0 "u" "Unknown" "" "" "" "火: 9時00分～18時00分") 0
      (Filters.mk "" "" none none ["月曜日"] "" 0)).passed = false := by
  exact C6_day_filter (MergedResult.mk "X" 0 0 "u" "Unknown" "" "" "" "火: 9時00分～18時00分") 0
    (Filters.mk "" "" none none ["月曜日"] "" 0) (by decide) (by decide) (by decide)

/-- The review-count stage only produces non-empty reasons. -/
lemma reviewsReason_ne_empty {item : MergedResult} {minReviews : Nat} {r : String}
    (h : reviewsReason item minReviews = some r) : r ≠ "" := by
  rw [reviewsReason] at h
  split_ifs at h
  injection h with h
  subst h
  repeat apply append_ne_empty_left
  decide

/-- The address stage only produces non-empty reasons. -/
lemma addressReason_ne_empty {item : MergedResult} {filters : Filters} {r : String}
    (h : addressReason item filters = some r) : r ≠ "" := by
  rw [addressReason] at h
  split_ifs at h <;>
    (injection h with h
     subst h
     repeat apply append_ne_empty_left
     decide)

/-- The category stage only produces non-empty reasons. -/
lemma categoryReason_ne_empty {item : MergedResult} {filters : Filters} {r : String}
    (h : categoryReason item filters = some r) : r ≠ "" := by
  rw [categoryReason] at h
  split_ifs at h <;>
    (injection h with h
     subst h
     repeat apply append_ne_empty_left
     decide)

/-- The budget stage only produces non-empty reasons. -/
lemma budgetReason_ne_empty {item : MergedResult} {filters : Filters} {r : String}
    (h : budgetReason item filters = some r) : r ≠ "" := by
  rw [budgetReason] at h
  cases hmin : filters.budgetMin <;> cases hmax : filters.budgetMax <;>
    cases hy : firstYenNumber item.budget.toList <;>
    rw [hmin, hmax, hy] at h <;>
    dsimp only at h <;>
    split_ifs at h <;>
    injection h with h <;>
    (subst h
     repeat apply append_ne_empty_left
     decide)

/-- The day-of-week stage only produces non-empty reasons. -/
lemma daysReason_ne_empty {item : MergedResult} {filters : Filters} {r : String}
    (h : daysReason item filters = some r) : r ≠ "" := by
  rw [daysReason] at h
  split_ifs at h
  injection h with h
  subst h
  repeat apply append_ne_empty_left
  decide

/-- A failing time-of-day check reports the target time as not open. -/
lemma checkOpenAtTime_failed {businessHours targetTime : String} {targetDays : List String}
    (h : (checkOpenAtTime businessHours targetTime targetDays).passed = false) :
    (checkOpenAtTime businessHours targetTime targetDays).reason =
      targetTime ++ "に営業していない" := by
  rw [checkOpenAtTime] at h ⊢
  cases hp : parseTime targetTime with
  | none => rw [hp] at h; simp at h
  | some t =>
    rw [hp] at h
    dsimp only at h ⊢
    split_ifs at h ⊢
    all_goals rfl

/-- The time-of-day stage only produces non-empty reasons. -/
lemma hoursReason_ne_empty {item : MergedResult} {filters : Filters} {r : String}
    (h : hoursReason item filters = some r) : r ≠ "" := by
  rw [hoursReason] at h
  split_ifs at h
  dsimp only at h
  split_ifs at h with hp
  cases hb : (checkOpenAtTime item.businessHours filters.hours filters.days).passed with
  | true => exact absurd hb (by simpa using hp)
  | false =>
    have hr := checkOpenAtTime_failed hb
    rw [hr] at h
    injection h with h
    subst h
    apply append_ne_empty_right
    decide

/-- Claim C7: the post-filter is a total function (it is defined for every
item, review minimum and filter configuration), and whenever its outcome is a
rejection the reported reason string is non-empty. -/
theorem C7_post_filter_reason (item : MergedResult) (minReviews : Nat) (filters : Filters)
    (h : (checkFilters item minReviews filters).passed = false) :
    (checkFilters item minReviews filters).reason ≠ "" := by
  cases hf : failReason item minReviews filters with
  | none => rw [checkFilters, hf] at h; simp at h
  | some r =>
    rw [checkFilters, hf]
    dsimp only
    rw [failReason] at hf
    rcases orReason_eq_some hf with h1 | hf
    · exact reviewsReason_ne_empty h1
    rcases orReason_eq_some hf with h2 | hf
    · exact addressReason_ne_empty h2
    rcases orReason_eq_some hf with h3 | hf
    · exact categoryReason_ne_empty h3
    rcases orReason_eq_some hf with h4 | hf
    · exact budgetReason_ne_empty h4
    rcases orReason_eq_some hf with h5 | h6
    · exact daysReason_ne_empty h5
    · exact hoursReason_ne_empty h6

/-- Witness for C7: a concrete item rejected on review count has a non-empty
reason. -/
theorem C7_post_filter_reason_witness :
    (checkFilters (MergedResult.mk "X" 0 1 "u" "Unknown" "" "" "" "") 5
        (Filters.mk "" "" none none [] "" 0)).passed = false ∧
    (checkFilters (MergedResult.mk "X" 0 1 "u" "Unknown" "" "" "" "") 5
        (Filters.mk "" "" none none [] "" 0)).reason ≠ "" := by
  refine ⟨by decide, ?_⟩
  exact C7_post_filter_reason (MergedResult.mk "X" 0 1 "u" "Unknown" "" "" "" "") 5
    (Filters.mk "" "" none none [] "" 0) (by decide)

/-- Claim C8: a retried operation failing on every attempt raises after
exactly 3 attempts with the error of the 3rd attempt, and a retried operation
succeeds with the result of the first successful attempt up to the 3rd. -/
theorem C8_retry_three_attempts (ε α : Type) :
    (∀ (op : Nat → Except ε α) (e₁ e₂ e₃ : ε),
      op 1 = .error e₁ → op 2 = .error e₂ → op 3 = .error e₃ →
      retryOperation op 3 = .error (some e₃) ∧ attemptsUsed op (List.range' 1 3) = 3) ∧
    (∀ (op : Nat → Except ε α) (k : Nat) (r : α), 1 ≤ k → k ≤ 3 →
      (∀ j, 1 ≤ j → j < k → ∃ e, op j = .error e) → op k = .ok r →
      retryOperation op 3 = .ok r) := by
  have hrange : List.range' 1 3 = [1, 2, 3] := rfl
  constructor
  · intro op e₁ e₂ e₃ h1 h2 h3
    rw [retryOperation, hrange]
    constructor
    · simp [runAttempts, h1, h2, h3]
    · simp [attemptsUsed, h1, h2, h3]
  · intro op k r hk1 hk3 hprev hk
    rw [retryOperation, hrange]
    interval_cases k
    · simp [runAttempts, hk]
    · obtain ⟨e₁, he₁⟩ := hprev 1 (by omega) (by omega)
      simp [runAttempts, he₁, hk]
    · obtain ⟨e₁, he₁⟩ := hprev 1 (by omega) (by omega)
      obtain ⟨e₂, he₂⟩ := hprev 2 (by omega) (by omega)
      simp [runAttempts, he₁, he₂, hk]

/-- Witness for C8: an always-failing operation yields the 3rd error after 3
attempts, and an operation succeeding on the 2nd attempt yields its result. -/
theorem C8_retry_three_attempts_witness :
    (retryOperation (fun a => (Except.error (toString a) : Except String Nat)) 3 =
        .error (some "3") ∧
      attemptsUsed (fun a => (Except.error (toString a) : Except String Nat))
        (List.range' 1 3) = 3) ∧
    retryOperation
      (fun a => if a = 2 then (Except.ok 7 : Except String Nat) else .error (toString a)) 3 =
      .ok 7 := by
  constructor
  · exact (C8_retry_three_attempts String Nat).1
      (fun a => .error (toString a)) "1" "2" "3" rfl rfl rfl
  · exact (C8_retry_three_attempts String Nat).2
      (fun a => if a = 2 then .ok 7 else .error (toString a)) 2 7 (by omega) (by omega)
      (fun j hj1 hj2 => ⟨toString j, by interval_cases j <;> rfl⟩) rfl

/-- The comparator relation is transitive. -/
instance : IsTrans MergedResult resultPrec where
  trans a b c hab hbc := by
    rcases hab with hab | ⟨hab, hab2⟩ <;> rcases hbc with hbc | ⟨hbc, hbc2⟩
    · exact Or.inl (lt_trans hbc hab)
    · exact Or.inl (hbc ▸ hab)
    · exact Or.inl (hab ▸ hbc)
    · exact Or.inr ⟨hab.trans hbc, le_trans hbc2 hab2⟩

/-- The comparator relation is total. -/
instance : IsTotal MergedResult resultPrec where
  total a b := by
    rcases lt_trichotomy a.rating b.rating with h | h | h
    · exact Or.inr (Or.inl h)
    · rcases le_total a.reviews b.reviews with hr | hr
      · exact Or.inr (Or.inr ⟨h.symm, hr⟩)
      · exact Or.inl (Or.inr ⟨h, hr⟩)
    · exact Or.inl (Or.inl h)

/-- Claim C9: the final sort returns a permutation of the matched set, ordered
by rating descending with review count descending as tie-break, stable on full
ties, and it sends the three-record example of the specification to the stated
order. -/
theorem C9_stable_ranking :
    (∀ l : List MergedResult, List.Perm (sortResults l) l) ∧
    (∀ l : List MergedResult, (sortResults l).Pairwise
      (fun a b => b.rating ≤ a.rating ∧ (a.rating = b.rating → b.reviews ≤ a.reviews))) ∧
    (∀ (a b : MergedResult) (l : List MergedResult),
      a.rating = b.rating → a.reviews = b.reviews →
      List.Sublist [a, b] l → List.Sublist [a, b] (sortResults l)) ∧
    sortResults [⟨"A", mkRat 42 10, 10, "", "", "", "", "", ""⟩,
        ⟨"B", mkRat 48 10, 2, "", "", "", "", "", ""⟩,
        ⟨"C", mkRat 42 10, 50, "", "", "", "", "", ""⟩] =
      [⟨"B", mkRat 48 10, 2, "", "", "", "", "", ""⟩,
        ⟨"C", mkRat 42 10, 50, "", "", "", "", "", ""⟩,
        ⟨"A", mkRat 42 10, 10, "", "", "", "", "", ""⟩] := by
  refine ⟨?_, ?_, ?_, by decide⟩
  · intro l
    exact List.perm_insertionSort resultPrec l
  · intro l
    refine (List.sorted_insertionSort resultPrec l).imp ?_
    intro a b hab
    rcases hab with hab | ⟨hab, hab2⟩
    · exact ⟨le_of_lt hab, fun he => absurd (he ▸ hab) (lt_irrefl _)⟩
    · exact ⟨le_of_eq hab.symm, fun _ => hab2⟩
  · intro a b l hr hv hab
    exact List.pair_sublist_insertionSort (Or.inr ⟨hr, le_of_eq hv.symm⟩) hab

/-- Witness for C9: two fully tied records keep their completion order. -/
theorem C9_stable_ranking_witness :
    List.Sublist
      [MergedResult.mk "first" (mkRat 42 10) 10 "" "" "" "" "" "",
        MergedResult.mk "second" (mkRat 42 10) 10 "" "" "" "" "" ""]
      (sortResults [⟨"first", mkRat 42 10, 10, "", "", "", "", "", ""⟩,
        ⟨"second", mkRat 42 10, 10, "", "", "", "", "", ""⟩]) := by
  exact C9_stable_ranking.2.2.1 ⟨"first", mkRat 42 10, 10, "", "", "", "", "", ""⟩
    ⟨"second", mkRat 42 10, 10, "", "", "", "", "", ""⟩ _ rfl rfl (List.Sublist.refl _)

/-- Claim C10: the pure pipeline ignores `maxItems` completely — two runs over
the same inputs whose filter configurations differ only in `maxItems` produce
identical output, and in particular the output is never truncated to it. -/
theorem C10_maxItems_unused (candidates : List Candidate)
    (detailsOf : Candidate → Option DetailRecord) (minRating : ℚ) (minReviews : Nat)
    (addr cat : String) (bmin bmax : Option Nat) (days : List String) (hrs : String)
    (m m' : Nat) :
    runPipeline candidates detailsOf minRating minReviews
      ⟨addr, cat, bmin, bmax, days, hrs, m⟩ =
    runPipeline candidates detailsOf minRating minReviews
      ⟨addr, cat, bmin, bmax, days, hrs, m'⟩ := rfl

end GMap
